import Mathlib

/-!
Shallow embedding of the simple_quant backtesting core of the repository,
centred on RobustPortfolio (stock_playground/simple_quant/portfolio/simple.py)
and the event model (stock_playground/simple_quant/events.py).

Conventions of the embedding:
* Python floats are modelled as exact rationals; where NaN can flow through a
  computation an Option wraps the value and none stands for NaN (or None).
* Bar close prices are supplied through a function from symbols to Option
  rationals; none models an unavailable close (Python None, or the NaN that
  update_timeindex tests with np.isnan).
* Python int() truncates toward zero; pyInt models it on rationals.
* Events carry only the fields the portfolio logic reads; timestamps are not
  modelled (the Calmar computation receives the day count directly).
-/

namespace SimpleQuant

/-- Direction of an order or fill, the string field of OrderEvent and
FillEvent in events.py restricted to its two used values. -/
inductive Direction
  | BUY
  | SELL
deriving DecidableEq, Repr

/-- Signal types of SignalEvent.signal_type: the docstring in events.py lists
LONG, SHORT, EXIT; the spec also names ADJUST. RobustPortfolio.update_signal
only distinguishes EXIT from the rest. -/
inductive SignalType
  | LONG
  | SHORT
  | EXIT
  | ADJUST
deriving DecidableEq, Repr

/-- SignalEvent of events.py (symbol, signal_type, strength); the datetime
field is not read by the portfolio and is omitted. -/
structure SignalEvent where
  symbol : String
  signal_type : SignalType
  strength : ℚ
deriving DecidableEq, Repr

/-- OrderEvent of events.py; order_type is always MKT and is omitted. -/
structure OrderEvent where
  symbol : String
  quantity : ℤ
  direction : Direction
deriving DecidableEq, Repr

/-- FillEvent of events.py: quantity, direction, the optional price override
field fill_cost, and the commission (always set by
SimulatedExecutionHandler.execute_order, so modelled as present). timeindex
and exchange are not read by the portfolio and are omitted. -/
structure FillEvent where
  symbol : String
  quantity : ℤ
  direction : Direction
  fill_cost : Option ℚ
  commission : ℚ
deriving DecidableEq, Repr

/-- Latest close prices as the DataHandler answers get_latest_bar_value for
the field Close: none models an unavailable value (Python None or NaN). -/
abbrev Prices := String → Option ℚ

/-- Python int() applied to a float: truncation toward zero. -/
def pyInt (q : ℚ) : ℤ := if 0 ≤ q then ⌊q⌋ else ⌈q⌉

/-- The sign Python code assigns to a fill direction in update_fill
(fill_dir = 1 for BUY, -1 for SELL). -/
def dirSign : Direction → ℤ
  | Direction.BUY => 1
  | Direction.SELL => -1

/-- One appended row of all_holdings: per-symbol market values (the dict keys
drawn from symbol_list), cash, cumulative commission and total. The datetime
key is not modelled. -/
structure HoldingsRow where
  values : String → ℚ
  cash : ℚ
  commission : ℚ
  total : ℚ

/-- One appended trade_history record of update_fill. -/
structure TradeRecord where
  symbol : String
  action : Direction
  quantity : ℤ
  price : ℚ
  commission : ℚ
  cost : ℚ
deriving DecidableEq, Repr

/-- The mutable state of a RobustPortfolio: current_positions,
the per-symbol entries, cash, commission and total of current_holdings,
and the run histories all_positions, all_holdings and trade_history. -/
structure PortfolioState where
  symbol_list : List String
  current_positions : String → ℤ
  holdings_values : String → ℚ
  cash : ℚ
  commission : ℚ
  total : ℚ
  all_positions : List (String → ℤ)
  all_holdings : List HoldingsRow
  trade_history : List TradeRecord

namespace RobustPortfolio

/-- RobustPortfolio.__init__ together with construct_all_positions,
construct_all_holdings and construct_current_holdings: all positions 0, all
per-symbol holding values 0.0, cash and total equal to initial_capital, one
initial row in each history list. -/
def init (symbols : List String) (initial_capital : ℚ) : PortfolioState where
  symbol_list := symbols
  current_positions := fun _ => 0
  holdings_values := fun _ => 0
  cash := initial_capital
  commission := 0
  total := initial_capital
  all_positions := [fun _ => 0]
  all_holdings :=
    [{ values := fun _ => 0
       cash := initial_capital
       commission := 0
       total := initial_capital }]
  trade_history := []

/-- The market value update_timeindex computes for one symbol: position times
the latest close, or — when the close is None or NaN — the per-symbol entry
current_holdings[s] (which __init__ sets to 0.0 and no method ever writes). -/
def markValue (st : PortfolioState) (prices : Prices) (s : String) : ℚ :=
  match prices s with
  | none => st.holdings_values s
  | some p => (st.current_positions s : ℚ) * p

/-- RobustPortfolio.update_timeindex: snapshot current_positions into
all_positions, build the holdings row from cash, commission and the
mark-to-market values, set current_holdings[total] and append the row. -/
def update_timeindex (st : PortfolioState) (prices : Prices) : PortfolioState :=
  let row : HoldingsRow :=
    { values := fun s => markValue st prices s
      cash := st.cash
      commission := st.commission
      total := st.cash + (st.symbol_list.map (markValue st prices)).sum }
  { st with
      total := row.total
      all_positions := st.all_positions ++ [st.current_positions]
      all_holdings := st.all_holdings ++ [row] }

/-- The total-equity recomputation at the top of update_signal: cash plus, for
every symbol whose price is truthy (not None, not 0.0) and whose position is
nonzero, position times price. -/
def current_equity (st : PortfolioState) (prices : Prices) : ℚ :=
  st.cash +
    (st.symbol_list.map fun s =>
      match prices s with
      | none => 0
      | some p =>
          if p ≠ 0 ∧ st.current_positions s ≠ 0 then (st.current_positions s : ℚ) * p
          else 0).sum

/-- The target weight update_signal derives from the event: 0 for EXIT,
otherwise the raw strength (no clamping appears in the source). -/
def target_weight (ev : SignalEvent) : ℚ :=
  if ev.signal_type = SignalType.EXIT then 0 else ev.strength

/-- The quantity_to_trade update_signal computes before any cash or holdings
cap: int((target_value - current_value) / current_price). -/
def sizing_quantity (st : PortfolioState) (prices : Prices) (ev : SignalEvent)
    (price : ℚ) : ℤ :=
  pyInt ((current_equity st prices * target_weight ev -
    (st.current_positions ev.symbol : ℚ) * price) / price)

/-- RobustPortfolio.update_signal: returns the OrderEvent pushed to the queue,
or none when the signal is dropped. The method writes no field of the
portfolio, which the return type makes explicit. A missing price (None)
returns early; the source also returns when the price equals 0. -/
def update_signal (st : PortfolioState) (prices : Prices) (ev : SignalEvent) :
    Option OrderEvent :=
  match prices ev.symbol with
  | none => none
  | some price =>
      if price = 0 then none
      else
        let quantity_to_trade := sizing_quantity st prices ev price
        if quantity_to_trade = 0 then none
        else if 0 < quantity_to_trade then
          -- BUY: clip to int(cash / price) when the cost overdraws cash
          if st.cash < (quantity_to_trade : ℚ) * price then
            let clipped := pyInt (st.cash / price)
            if clipped = 0 then none
            else if 0 < clipped then some ⟨ev.symbol, clipped, Direction.BUY⟩
            else none
          else some ⟨ev.symbol, quantity_to_trade, Direction.BUY⟩
        else
          -- SELL: cap at the absolute current holding
          let sell_qty := min (-quantity_to_trade) |st.current_positions ev.symbol|
          if 0 < sell_qty then some ⟨ev.symbol, sell_qty, Direction.SELL⟩
          else none

/-- The code getattr(event, price, None) in update_fill: FillEvent (events.py)
declares no field named price — its price-override field is fill_cost — and
pydantic raises AttributeError for undeclared attributes, so getattr always
yields the default None. -/
def getattr_price (_ : FillEvent) : Option ℚ := none

/-- RobustPortfolio.update_fill: the fill price is getattr(event, price, None)
or, when that is None, the symbol's current bar close (passed in as close);
position, cash, cumulative commission and trade_history are updated. -/
def update_fill (st : PortfolioState) (close : ℚ) (ev : FillEvent) :
    PortfolioState :=
  let fill_price := (getattr_price ev).getD close
  let cost : ℚ := (dirSign ev.direction : ℚ) * fill_price * (ev.quantity : ℚ)
  { st with
      current_positions := fun s =>
        if s = ev.symbol then st.current_positions s + dirSign ev.direction * ev.quantity
        else st.current_positions s
      cash := st.cash - (cost + ev.commission)
      commission := st.commission + ev.commission
      trade_history := st.trade_history ++
        [{ symbol := ev.symbol
           action := ev.direction
           quantity := ev.quantity
           price := fill_price
           commission := ev.commission
           cost := cost }] }

/-- One portfolio-mutating call of a run: update_signal (which writes
nothing and only emits an order), update_fill, or update_timeindex.
The statistics methods read the finished equity curve and write no
holdings field, so they do not appear as operations. -/
inductive PortfolioOp
  | signal (prices : Prices) (ev : SignalEvent)
  | fill (close : ℚ) (ev : FillEvent)
  | timeindex (prices : Prices)

/-- Dispatch of one operation on the state. update_signal leaves the state
exactly as it was (the source method assigns to no attribute). -/
def applyOp (st : PortfolioState) : PortfolioOp → PortfolioState
  | PortfolioOp.signal _ _ => st
  | PortfolioOp.fill close ev => update_fill st close ev
  | PortfolioOp.timeindex prices => update_timeindex st prices

/-- A sequence of operations applied in order. -/
def applyOps (st : PortfolioState) (ops : List PortfolioOp) : PortfolioState :=
  ops.foldl applyOp st

/-- How much one operation subtracts from cash: signed fill notional plus
commission for a fill (the notional priced as update_fill prices it), 0 for
everything else. -/
def fill_cash_delta : PortfolioOp → ℚ
  | PortfolioOp.fill close ev =>
      (dirSign ev.direction : ℚ) * ((getattr_price ev).getD close) * (ev.quantity : ℚ) +
        ev.commission
  | _ => 0

end RobustPortfolio

end SimpleQuant

namespace SimpleQuant

namespace RobustPortfolio

/-- Evaluation of pyInt on a nonnegative argument bracketed by an integer. -/
lemma pyInt_eq_of_nonneg {q : ℚ} {z : ℤ} (hq : 0 ≤ q) (h1 : (z : ℚ) ≤ q) (h2 : q < z + 1) :
    pyInt q = z := by
  simp only [pyInt, if_pos hq]
  exact Int.floor_eq_iff.mpr ⟨h1, h2⟩

/-- Evaluation of pyInt on a negative argument bracketed by an integer. -/
lemma pyInt_eq_of_neg {q : ℚ} {z : ℤ} (hq : ¬ 0 ≤ q) (h1 : (z : ℚ) - 1 < q) (h2 : q ≤ (z : ℚ)) :
    pyInt q = z := by
  simp only [pyInt, if_neg hq]
  exact Int.ceil_eq_iff.mpr ⟨h1, h2⟩

/-- pyInt is the identity on integers. -/
lemma pyInt_intCast (n : ℤ) : pyInt (n : ℚ) = n := by
  unfold pyInt
  split
  · exact Int.floor_intCast n
  · exact Int.ceil_intCast n

/-- update_signal unfolded once the price lookup has succeeded with a nonzero
price. -/
lemma update_signal_eq (st : PortfolioState) (prices : Prices) (ev : SignalEvent) (p : ℚ)
    (hp : prices ev.symbol = some p) (hp0 : p ≠ 0) :
    update_signal st prices ev =
      (if sizing_quantity st prices ev p = 0 then none
       else if 0 < sizing_quantity st prices ev p then
         if st.cash < (sizing_quantity st prices ev p : ℚ) * p then
           (if pyInt (st.cash / p) = 0 then none
            else if 0 < pyInt (st.cash / p) then
              some ⟨ev.symbol, pyInt (st.cash / p), Direction.BUY⟩
            else none)
         else some ⟨ev.symbol, sizing_quantity st prices ev p, Direction.BUY⟩
       else
         if 0 < min (-sizing_quantity st prices ev p) |st.current_positions ev.symbol| then
           some ⟨ev.symbol, min (-sizing_quantity st prices ev p) |st.current_positions ev.symbol|,
             Direction.SELL⟩
         else none) := by
  unfold update_signal
  rw [hp]
  simp [hp0]

/-- The three-way branch the source takes after clipping a BUY to
int(cash / price) collapses to one test of the positivity of the floor. -/
lemma buy_clip_cases (sym : String) (cash p : ℚ) :
    (if pyInt (cash / p) = 0 then (none : Option OrderEvent)
     else if 0 < pyInt (cash / p) then some ⟨sym, pyInt (cash / p), Direction.BUY⟩
     else none) =
      (if 0 < ⌊cash / p⌋ then some ⟨sym, ⌊cash / p⌋, Direction.BUY⟩ else none) := by
  by_cases hnn : 0 ≤ cash / p
  · have hfloor : pyInt (cash / p) = ⌊cash / p⌋ := by simp [pyInt, if_pos hnn]
    rw [hfloor]
    rcases lt_trichotomy (⌊cash / p⌋) 0 with h | h | h
    · simp only [if_neg (show ¬ ⌊cash / p⌋ = 0 by omega),
        if_neg (show ¬ (0 : ℤ) < ⌊cash / p⌋ by omega)]
    · simp only [if_pos h, if_neg (show ¬ (0 : ℤ) < ⌊cash / p⌋ by omega)]
    · simp only [if_neg (show ¬ ⌊cash / p⌋ = 0 by omega), if_pos h]
  · have hceil : pyInt (cash / p) = ⌈cash / p⌉ := by simp [pyInt, hnn]
    have h1 : ⌈cash / p⌉ ≤ 0 := Int.ceil_le.mpr (by exact_mod_cast le_of_not_le hnn)
    have h2 : ⌊cash / p⌋ < 0 := by
      have hlt : cash / p < 0 := lt_of_not_le hnn
      have hle := Int.floor_le (cash / p)
      have hcast : (⌊cash / p⌋ : ℚ) < 0 := lt_of_le_of_lt hle hlt
      exact_mod_cast hcast
    rw [hceil]
    rcases eq_or_lt_of_le h1 with h | h
    · simp only [if_pos h, if_neg (show ¬ (0 : ℤ) < ⌊cash / p⌋ by omega)]
    · simp only [if_neg (show ¬ ⌈cash / p⌉ = 0 by omega),
        if_neg (show ¬ (0 : ℤ) < ⌈cash / p⌉ by omega),
        if_neg (show ¬ (0 : ℤ) < ⌊cash / p⌋ by omega)]

end RobustPortfolio

namespace RobustPortfolio

/-- Close prices of the first marked day of the C1 scenario. -/
def c1_prices_day1 : Prices := fun _ => some 100

/-- Close prices of the gapped day of the C1 scenario: no close available. -/
def c1_prices_day2 : Prices := fun _ => none

/-- C1 scenario: 100000 initial capital, a BUY of 10 shares at 100, one
mark-to-market at close 100, then one with the close unavailable. -/
def c1_state : PortfolioState :=
  update_timeindex
    (update_timeindex
      (update_fill (init [ "A" ] 100000) 100 ⟨ "A", 10, Direction.BUY, none, 0⟩)
      c1_prices_day1)
    c1_prices_day2

/-- C1: on the gapped day update_timeindex records 0 as the symbol's market
value, not the previously recorded 1000: the fallback reads
current_holdings[s], which stays 0.0 forever because no method writes the
per-symbol entries of current_holdings (the code comment promises the prior
market value). The row totals drop from 100000 to 99000 accordingly. -/
theorem c1_gap_marks_zero :
    (c1_state.all_holdings.map fun r => r.values "A") = [ 0, 1000, 0 ] ∧
    (c1_state.all_holdings.map fun r => r.total) = [ 100000, 100000, 99000 ] := by
  constructor <;>
    · simp [c1_state, c1_prices_day1, c1_prices_day2, update_timeindex, update_fill, init,
        markValue, getattr_price, dirSign]
      try norm_num

/-- C2: over any sequence of portfolio operations, cash changes exactly by the
sum of signed fill notionals plus commissions; update_signal and
update_timeindex leave cash untouched. -/
theorem c2_cash_conservation (ops : List PortfolioOp) (st : PortfolioState) :
    (applyOps st ops).cash = st.cash - (ops.map fill_cash_delta).sum := by
  induction ops generalizing st with
  | nil => simp [applyOps]
  | cons op rest ih =>
    have h : (applyOp st op).cash = st.cash - fill_cash_delta op := by
      cases op with
      | signal prices ev => simp [applyOp, fill_cash_delta]
      | fill close ev =>
        simp [applyOp, fill_cash_delta, update_fill]
        try ring
      | timeindex prices => simp [applyOp, fill_cash_delta, update_timeindex]
    have hfold : applyOps st (op :: rest) = applyOps (applyOp st op) rest := rfl
    rw [hfold, ih (applyOp st op), h]
    simp [List.sum_cons]
    ring

/-- The C6 fill: an explicit price override of 50 in fill_cost, commission 1. -/
def c6_fill : FillEvent := ⟨ "A", 1, Direction.BUY, some 50, 1⟩

/-- C6: update_fill ignores the fill_cost override: with bar close 100 and
fill_cost = some 50 it deducts 100 + 1 from cash (999 - 100 = 899, not
1000 - 51 = 949) and records price 100 in the trade audit, because
getattr(event, price, None) always yields None — FillEvent has no attribute
named price. -/
theorem c6_fill_cost_ignored :
    c6_fill.fill_cost = some 50 ∧
    (update_fill (init [ "A" ] 1000) 100 c6_fill).cash = 899 ∧
    ((update_fill (init [ "A" ] 1000) 100 c6_fill).trade_history.map fun t => t.price) =
      [ 100 ] := by
  refine ⟨rfl, ?_, ?_⟩ <;>
    · simp [update_fill, init, getattr_price, dirSign, c6_fill]
      try norm_num

/-- C3: when a LONG/ADJUST signal sizes a BUY whose cost exceeds cash, the
order is clipped to floor(cash / price); a zero floor drops the order
entirely, and the signal path leaves cash untouched. -/
theorem c3_insufficient_cash_clip (st : PortfolioState) (prices : Prices) (ev : SignalEvent)
    (p : ℚ) (hp : prices ev.symbol = some p) (hppos : 0 < p)
    (hty : ev.signal_type = SignalType.LONG ∨ ev.signal_type = SignalType.ADJUST)
    (hbuy : 0 < sizing_quantity st prices ev p)
    (hcost : st.cash < (sizing_quantity st prices ev p : ℚ) * p) :
    update_signal st prices ev =
      (if 0 < ⌊st.cash / p⌋ then some ⟨ev.symbol, ⌊st.cash / p⌋, Direction.BUY⟩ else none) ∧
    (⌊st.cash / p⌋ = 0 → update_signal st prices ev = none) ∧
    (applyOp st (PortfolioOp.signal prices ev)).cash = st.cash := by
  have hp0 : p ≠ 0 := ne_of_gt hppos
  have main : update_signal st prices ev =
      (if 0 < ⌊st.cash / p⌋ then some ⟨ev.symbol, ⌊st.cash / p⌋, Direction.BUY⟩ else none) := by
    rw [update_signal_eq st prices ev p hp hp0]
    rw [if_neg (by omega : ¬ sizing_quantity st prices ev p = 0), if_pos hbuy, if_pos hcost]
    exact buy_clip_cases ev.symbol st.cash p
  refine ⟨main, ?_, rfl⟩
  intro h0
  rw [main, if_neg (by omega : ¬ (0 : ℤ) < ⌊st.cash / p⌋)]

/-- The C3 witness state: 25 of cash and no positions. -/
def c3_state : PortfolioState := init [ "A" ] 25

/-- The C3 witness prices. -/
def c3_prices : Prices := fun _ => some 10

/-- The C3 witness signal: a LONG far beyond the available cash. -/
def c3_signal : SignalEvent := ⟨ "A", SignalType.LONG, 100⟩

/-- Evaluation of the C3 witness sizing: int((25 * 100 - 0) / 10) = 250. -/
lemma c3_sizing_eval : sizing_quantity c3_state c3_prices c3_signal 10 = 250 := by
  unfold sizing_quantity
  have harg : (current_equity c3_state c3_prices * target_weight c3_signal -
      (c3_state.current_positions c3_signal.symbol : ℚ) * 10) / 10 = 250 := by
    simp [current_equity, target_weight, c3_state, c3_prices, c3_signal, init]
    norm_num
  rw [harg]
  exact pyInt_eq_of_nonneg (by norm_num) (by norm_num) (by norm_num)

/-- Witness for C3 at a concrete input: sizing 250, cost 2500 over cash 25,
clipped to floor(25 / 10) = 2. -/
theorem c3_clip_witness :
    (update_signal c3_state c3_prices c3_signal =
      (if 0 < ⌊c3_state.cash / 10⌋ then some ⟨c3_signal.symbol, ⌊c3_state.cash / 10⌋, Direction.BUY⟩
       else none)) ∧
    (⌊c3_state.cash / 10⌋ = 0 → update_signal c3_state c3_prices c3_signal = none) ∧
    (applyOp c3_state (PortfolioOp.signal c3_prices c3_signal)).cash = c3_state.cash :=
  c3_insufficient_cash_clip c3_state c3_prices c3_signal 10 rfl (by norm_num) (Or.inl rfl)
    (by rw [c3_sizing_eval]; norm_num)
    (by rw [c3_sizing_eval]
        show c3_state.cash < ((250 : ℤ) : ℚ) * 10
        simp [c3_state, init]
        norm_num)

/-- C4 amended: EXIT with a valid price flattens a positive position with one
SELL of the full position and is a no-op when flat; a negative position's
covering BUY is additionally subject to the cash clip, so only an affordable
cover buys back the full absolute position. -/
theorem c4_exit_cases (st : PortfolioState) (prices : Prices) (ev : SignalEvent) (p : ℚ)
    (hp : prices ev.symbol = some p) (hppos : 0 < p)
    (hexit : ev.signal_type = SignalType.EXIT) :
    (st.current_positions ev.symbol = 0 → update_signal st prices ev = none) ∧
    (0 < st.current_positions ev.symbol →
      update_signal st prices ev =
        some ⟨ev.symbol, st.current_positions ev.symbol, Direction.SELL⟩) ∧
    (st.current_positions ev.symbol < 0 →
      ((-st.current_positions ev.symbol : ℤ) : ℚ) * p ≤ st.cash →
      update_signal st prices ev =
        some ⟨ev.symbol, -st.current_positions ev.symbol, Direction.BUY⟩) ∧
    (st.current_positions ev.symbol < 0 →
      st.cash < ((-st.current_positions ev.symbol : ℤ) : ℚ) * p →
      update_signal st prices ev =
        (if 0 < ⌊st.cash / p⌋ then some ⟨ev.symbol, ⌊st.cash / p⌋, Direction.BUY⟩ else none)) := by
  have hp0 : p ≠ 0 := ne_of_gt hppos
  have hq : sizing_quantity st prices ev p = -st.current_positions ev.symbol := by
    unfold sizing_quantity
    rw [show target_weight ev = 0 by simp [target_weight, hexit]]
    have harg : (current_equity st prices * 0 -
        (st.current_positions ev.symbol : ℚ) * p) / p =
        ((-st.current_positions ev.symbol : ℤ) : ℚ) := by
      push_cast
      field_simp
    rw [harg, pyInt_intCast]
  rw [update_signal_eq st prices ev p hp hp0, hq]
  refine ⟨?_, ?_, ?_, ?_⟩
  · intro h0
    simp [h0]
  · intro hpos
    rw [if_neg (by omega : ¬ -st.current_positions ev.symbol = 0),
      if_neg (by omega : ¬ (0 : ℤ) < -st.current_positions ev.symbol), neg_neg,
      abs_of_pos hpos, min_self, if_pos hpos]
  · intro hneg hafford
    rw [if_neg (by omega : ¬ -st.current_positions ev.symbol = 0),
      if_pos (by omega : (0 : ℤ) < -st.current_positions ev.symbol),
      if_neg (not_lt.mpr hafford)]
  · intro hneg hover
    rw [if_neg (by omega : ¬ -st.current_positions ev.symbol = 0),
      if_pos (by omega : (0 : ℤ) < -st.current_positions ev.symbol),
      if_pos hover]
    exact buy_clip_cases ev.symbol st.cash p

/-- The C4 counterexample state: short 10 of A, long 14 of B, 100 of cash. -/
def c4_state : PortfolioState :=
  update_fill
    (update_fill (init [ "A", "B" ] 500) 100 ⟨ "A", 10, Direction.SELL, none, 0⟩)
    100 ⟨ "B", 14, Direction.BUY, none, 0⟩

/-- The C4 counterexample prices. -/
def c4_prices : Prices := fun _ => some 100

/-- The C4 counterexample signal. -/
def c4_exit : SignalEvent := ⟨ "A", SignalType.EXIT, 1⟩

/-- C4 counterexample: EXIT on a short position of -10 emits a single BUY of
1 share (the covering buy is clipped to int(100 / 100) by available cash),
not the full 10 the claim requires. -/
theorem c4_counterexample :
    c4_state.current_positions "A" = -10 ∧
    update_signal c4_state c4_prices c4_exit = some ⟨ "A", 1, Direction.BUY⟩ ∧
    (1 : ℤ) ≠ |c4_state.current_positions "A"| := by
  have hA : c4_state.current_positions "A" = -10 := by
    simp [c4_state, update_fill, init, getattr_price, dirSign]
  have e10 : pyInt ((10 : ℚ)) = 10 := pyInt_eq_of_nonneg (by norm_num) (by norm_num) (by norm_num)
  have e1 : pyInt ((1 : ℚ)) = 1 := pyInt_eq_of_nonneg (by norm_num) (by norm_num) (by norm_num)
  refine ⟨hA, ?_, by rw [hA]; decide⟩
  simp [update_signal, c4_prices, sizing_quantity, current_equity, target_weight,
    c4_state, update_fill, init, getattr_price, dirSign, c4_exit]
  norm_num [e10, e1]

/-- The C4 witness state: long 7 of A after one BUY fill. -/
def c4w_state : PortfolioState :=
  update_fill (init [ "A" ] 100) 10 ⟨ "A", 7, Direction.BUY, none, 1⟩

/-- The C4 witness prices. -/
def c4w_prices : Prices := fun _ => some 10

/-- The C4 witness signal. -/
def c4w_exit : SignalEvent := ⟨ "A", SignalType.EXIT, 1⟩

/-- Witness for the amended C4 at a concrete input: EXIT on a long position of
7 emits one SELL of the full 7. -/
theorem c4_exit_witness :
    0 < c4w_state.current_positions "A" ∧
    update_signal c4w_state c4w_prices c4w_exit =
      some ⟨ "A", c4w_state.current_positions "A", Direction.SELL⟩ := by
  have hpos : 0 < c4w_state.current_positions "A" := by
    simp [c4w_state, update_fill, init, getattr_price, dirSign]
  exact ⟨hpos, (c4_exit_cases c4w_state c4w_prices c4w_exit 10 rfl (by norm_num) rfl).2.1 hpos⟩

/-- C10: every BUY order update_signal emits satisfies quantity * price ≤
cash, and filling that order at the same close with a nonnegative commission
leaves cash no lower than minus the commission. -/
theorem c10_buy_within_cash (st : PortfolioState) (prices : Prices) (ev : SignalEvent)
    (p comm : ℚ) (o : OrderEvent)
    (hp : prices ev.symbol = some p) (hppos : 0 < p)
    (ho : update_signal st prices ev = some o) (hdir : o.direction = Direction.BUY)
    (hcomm : 0 ≤ comm) :
    (o.quantity : ℚ) * p ≤ st.cash ∧
    -comm ≤ (update_fill st p ⟨o.symbol, o.quantity, o.direction, none, comm⟩).cash := by
  have hp0 : p ≠ 0 := ne_of_gt hppos
  rw [update_signal_eq st prices ev p hp hp0] at ho
  have hqty : (o.quantity : ℚ) * p ≤ st.cash := by
    by_cases h1 : sizing_quantity st prices ev p = 0
    · rw [if_pos h1] at ho
      exact absurd ho (by simp)
    · rw [if_neg h1] at ho
      by_cases h2 : 0 < sizing_quantity st prices ev p
      · rw [if_pos h2] at ho
        by_cases h3 : st.cash < (sizing_quantity st prices ev p : ℚ) * p
        · rw [if_pos h3] at ho
          by_cases h4 : pyInt (st.cash / p) = 0
          · rw [if_pos h4] at ho
            exact absurd ho (by simp)
          · rw [if_neg h4] at ho
            by_cases h5 : 0 < pyInt (st.cash / p)
            · rw [if_pos h5] at ho
              obtain rfl : o = ⟨ev.symbol, pyInt (st.cash / p), Direction.BUY⟩ :=
                (Option.some.inj ho).symm
              have hnn : 0 ≤ st.cash / p := by
                by_contra hlt
                have hc : pyInt (st.cash / p) = ⌈st.cash / p⌉ := by simp [pyInt, hlt]
                have hle : ⌈st.cash / p⌉ ≤ 0 :=
                  Int.ceil_le.mpr (by exact_mod_cast le_of_not_le hlt)
                omega
              have hfl : pyInt (st.cash / p) = ⌊st.cash / p⌋ := by simp [pyInt, hnn]
              have hle : (⌊st.cash / p⌋ : ℚ) ≤ st.cash / p := Int.floor_le _
              show ((pyInt (st.cash / p) : ℤ) : ℚ) * p ≤ st.cash
              calc ((pyInt (st.cash / p) : ℤ) : ℚ) * p
                  = (⌊st.cash / p⌋ : ℚ) * p := by rw [hfl]
                _ ≤ (st.cash / p) * p := mul_le_mul_of_nonneg_right hle (le_of_lt hppos)
                _ = st.cash := div_mul_cancel₀ _ hp0
            · rw [if_neg h5] at ho
              exact absurd ho (by simp)
        · rw [if_neg h3] at ho
          obtain rfl : o = ⟨ev.symbol, sizing_quantity st prices ev p, Direction.BUY⟩ :=
            (Option.some.inj ho).symm
          simpa using not_lt.mp h3
      · rw [if_neg h2] at ho
        by_cases h6 : 0 < min (-sizing_quantity st prices ev p) |st.current_positions ev.symbol|
        · rw [if_pos h6] at ho
          obtain rfl : o = ⟨ev.symbol,
              min (-sizing_quantity st prices ev p) |st.current_positions ev.symbol|,
              Direction.SELL⟩ := (Option.some.inj ho).symm
          simp at hdir
        · rw [if_neg h6] at ho
          exact absurd ho (by simp)
  refine ⟨hqty, ?_⟩
  have hcash : (update_fill st p ⟨o.symbol, o.quantity, o.direction, none, comm⟩).cash
      = st.cash - ((1 : ℚ) * p * (o.quantity : ℚ) + comm) := by
    simp [update_fill, getattr_price, hdir, dirSign]
  rw [hcash]
  have hcomm2 : (o.quantity : ℚ) * p = (1 : ℚ) * p * (o.quantity : ℚ) := by ring
  linarith [hqty]

/-- The C10 witness state. -/
def c10_state : PortfolioState := init [ "A" ] 1000

/-- The C10 witness prices. -/
def c10_prices : Prices := fun _ => some 10

/-- The C10 witness signal: LONG at half weight, sized to 50 shares. -/
def c10_signal : SignalEvent := ⟨ "A", SignalType.LONG, 1/2⟩

/-- Evaluation of the C10 witness order. -/
lemma c10_order_eval :
    update_signal c10_state c10_prices c10_signal = some ⟨ "A", 50, Direction.BUY⟩ := by
  have e50 : pyInt ((50 : ℚ)) = 50 := pyInt_eq_of_nonneg (by norm_num) (by norm_num) (by norm_num)
  simp [update_signal, c10_prices, sizing_quantity, current_equity, target_weight,
    c10_state, init, c10_signal]
  norm_num [e50]

/-- Witness for C10 at a concrete input: the emitted BUY of 50 at 10 costs
500 of the 1000 cash, and the fill with commission 1 leaves cash at 499. -/
theorem c10_buy_witness :
    ((50 : ℤ) : ℚ) * 10 ≤ c10_state.cash ∧
    -1 ≤ (update_fill c10_state 10 ⟨ "A", 50, Direction.BUY, none, 1⟩).cash :=
  c10_buy_within_cash c10_state c10_prices c10_signal 10 1 ⟨ "A", 50, Direction.BUY⟩ rfl
    (by norm_num) c10_order_eval rfl (by norm_num)

end RobustPortfolio

end SimpleQuant
namespace SimpleQuant
namespace RobustPortfolio

/-- Modelled from the spec for comparison with the source (claim C5): the
weight-rebalancing policy as the spec words it, with clamping:
target_value = total_equity * clamp(strength, 0, max_position_fraction),
delta_shares = floor((target_value - current_value) / price), an order only
when delta_shares is nonzero, capped by available cash (BUY, clipped to
floor(cash / price), dropped at 0) or by the held quantity (SELL). -/
def update_signal_spec_clamped (max_position_fraction : ℚ) (st : PortfolioState)
    (prices : Prices) (ev : SignalEvent) : Option OrderEvent :=
  match prices ev.symbol with
  | none => none
  | some price =>
      if price = 0 then none
      else
        let tw := if ev.signal_type = SignalType.EXIT then 0
                  else min (max ev.strength 0) max_position_fraction
        let delta := ⌊(current_equity st prices * tw -
            (st.current_positions ev.symbol : ℚ) * price) / price⌋
        if delta = 0 then none
        else if 0 < delta then
          if st.cash < (delta : ℚ) * price then
            (if 0 < ⌊st.cash / price⌋ then some ⟨ev.symbol, ⌊st.cash / price⌋, Direction.BUY⟩
             else none)
          else some ⟨ev.symbol, delta, Direction.BUY⟩
        else
          if 0 < min (-delta) |st.current_positions ev.symbol| then
            some ⟨ev.symbol, min (-delta) |st.current_positions ev.symbol|, Direction.SELL⟩
          else none

/-- C5 amended: the source applies no clamp, so it coincides with the spec's
clamped policy exactly when the strength already lies inside
[0, max_position_fraction] and the rebalance is buy-side (nonnegative value
difference, where int() truncation and floor agree). -/
theorem c5_unclamped_refinement (mpf : ℚ) (st : PortfolioState) (prices : Prices)
    (ev : SignalEvent) (p : ℚ)
    (hp : prices ev.symbol = some p) (hppos : 0 < p)
    (hty : ev.signal_type = SignalType.LONG ∨ ev.signal_type = SignalType.ADJUST)
    (hs0 : 0 ≤ ev.strength) (hsm : ev.strength ≤ mpf)
    (hdiff : 0 ≤ current_equity st prices * ev.strength -
      (st.current_positions ev.symbol : ℚ) * p) :
    update_signal_spec_clamped mpf st prices ev = update_signal st prices ev := by
  have hp0 : p ≠ 0 := ne_of_gt hppos
  have hne : ev.signal_type ≠ SignalType.EXIT := by
    rcases hty with h | h <;> simp [h]
  have hclamp : min (max ev.strength 0) mpf = ev.strength := by
    rw [max_eq_left hs0, min_eq_left hsm]
  have htw : target_weight ev = ev.strength := by simp [target_weight, hne]
  have hdnn : 0 ≤ (current_equity st prices * ev.strength -
      (st.current_positions ev.symbol : ℚ) * p) / p := div_nonneg hdiff (le_of_lt hppos)
  have hq : sizing_quantity st prices ev p =
      ⌊(current_equity st prices * ev.strength -
        (st.current_positions ev.symbol : ℚ) * p) / p⌋ := by
    unfold sizing_quantity
    rw [htw]
    simp [pyInt, if_pos hdnn]
  have hfnn : (0 : ℤ) ≤ ⌊(current_equity st prices * ev.strength -
      (st.current_positions ev.symbol : ℚ) * p) / p⌋ := Int.floor_nonneg.mpr hdnn
  rw [update_signal_eq st prices ev p hp hp0, hq]
  unfold update_signal_spec_clamped
  rw [hp]
  simp only [if_neg hp0, if_neg hne, hclamp]
  rcases eq_or_lt_of_le hfnn with h0 | hpos
  · rw [if_pos h0.symm, if_pos h0.symm]
  · rw [if_neg (by omega : ¬ ⌊(current_equity st prices * ev.strength -
        (st.current_positions ev.symbol : ℚ) * p) / p⌋ = 0), if_pos hpos,
      if_neg (by omega : ¬ ⌊(current_equity st prices * ev.strength -
        (st.current_positions ev.symbol : ℚ) * p) / p⌋ = 0), if_pos hpos]
    by_cases hc : st.cash < (⌊(current_equity st prices * ev.strength -
        (st.current_positions ev.symbol : ℚ) * p) / p⌋ : ℚ) * p
    · rw [if_pos hc, if_pos hc]
      exact (buy_clip_cases ev.symbol st.cash p).symm
    · rw [if_neg hc, if_neg hc]

end RobustPortfolio
end SimpleQuant
namespace SimpleQuant
namespace RobustPortfolio

/-- The C5 counterexample state: 100 of A bought at 10 with commission 50,
leaving cash at -50 (reachable: the affordability check excludes commission). -/
def c5_state : PortfolioState :=
  update_fill (init [ "A" ] 1000) 10 ⟨ "A", 100, Direction.BUY, none, 50⟩

/-- The C5 counterexample prices. -/
def c5_prices : Prices := fun _ => some 10

/-- The C5 counterexample signal: a 150 percent target weight. -/
def c5_signal : SignalEvent := ⟨ "A", SignalType.LONG, 3/2⟩

/-- C5 counterexample: on the 150 percent signal the source emits no order
(the unclamped buy is clipped to int(-50 / 10) = -5 and discarded), while the
spec's clamped policy emits a SELL for every max_position_fraction in [0, 1];
so no clamp value reproduces the source's sizing. -/
theorem c5_counterexample :
    update_signal c5_state c5_prices c5_signal = none ∧
    ∀ mpf : ℚ, 0 ≤ mpf → mpf ≤ 1 →
      update_signal_spec_clamped mpf c5_state c5_prices c5_signal ≠
        update_signal c5_state c5_prices c5_signal := by
  have e42 : pyInt ((85 : ℚ) / 2) = 42 :=
    pyInt_eq_of_nonneg (by norm_num) (by norm_num) (by norm_num)
  have em5 : pyInt ((-5 : ℚ)) = -5 :=
    pyInt_eq_of_neg (by norm_num) (by norm_num) (by norm_num)
  have hnone : update_signal c5_state c5_prices c5_signal = none := by
    simp [update_signal, c5_prices, sizing_quantity, current_equity, target_weight,
      c5_state, update_fill, init, getattr_price, dirSign, c5_signal]
    norm_num [e42, em5]
  refine ⟨hnone, ?_⟩
  intro mpf h0 h1
  rw [hnone]
  have hE : current_equity c5_state c5_prices = 950 := by
    simp [current_equity, c5_state, update_fill, init, getattr_price, dirSign, c5_prices]
    norm_num
  have hqty : c5_state.current_positions "A" = 100 := by
    simp [c5_state, update_fill, init, getattr_price, dirSign]
  have htw : min (max ((3 : ℚ)/2) 0) mpf = mpf := by
    rw [max_eq_left (by norm_num), min_eq_right (le_trans h1 (by norm_num))]
  have harg : ((950 : ℚ) * mpf - (100 : ℤ) * 10) / 10 = 95 * mpf - 100 := by
    push_cast
    ring
  have hle : (95 : ℚ) * mpf - 100 ≤ -5 := by nlinarith
  have hfle : ⌊(95 : ℚ) * mpf - 100⌋ ≤ -5 := by
    calc ⌊(95 : ℚ) * mpf - 100⌋ ≤ ⌊(-5 : ℚ)⌋ := Int.floor_mono hle
      _ = -5 := by
        rw [show ((-5 : ℚ)) = ((-5 : ℤ) : ℚ) by norm_num, Int.floor_intCast]
  unfold update_signal_spec_clamped
  simp only [c5_prices, c5_signal, hE, hqty]
  rw [htw, if_neg (show ¬ (10 : ℚ) = 0 by norm_num),
    if_neg (show ¬ SignalType.LONG = SignalType.EXIT by decide), harg,
    if_neg (show ¬ ⌊(95 : ℚ) * mpf - 100⌋ = 0 by omega),
    if_neg (show ¬ (0 : ℤ) < ⌊(95 : ℚ) * mpf - 100⌋ by omega),
    if_pos (lt_min_iff.mpr ⟨by omega, by decide⟩)]
  simp

end RobustPortfolio
end SimpleQuant

namespace SimpleQuant
namespace RobustPortfolio

/-- The C5 witness state. -/
def c5w_state : PortfolioState := init [ "A" ] 1000

/-- The C5 witness prices. -/
def c5w_prices : Prices := fun _ => some 10

/-- The C5 witness signal: a 10 percent target weight, inside [0, 1/5]. -/
def c5w_signal : SignalEvent := ⟨ "A", SignalType.LONG, 1/10⟩

/-- Witness for the amended C5 at a concrete input: with strength 1/10 within
the clamp range [0, 1/5] the source and the spec's clamped policy emit the
same order. -/
theorem c5_refinement_witness :
    update_signal_spec_clamped (1/5) c5w_state c5w_prices c5w_signal =
      update_signal c5w_state c5w_prices c5w_signal :=
  c5_unclamped_refinement (1/5) c5w_state c5w_prices c5w_signal 10 rfl (by norm_num)
    (Or.inl rfl) (by norm_num [c5w_signal]) (by norm_num [c5w_signal])
    (by simp [current_equity, c5w_state, c5w_prices, c5w_signal, init]
        try norm_num)

end RobustPortfolio
end SimpleQuant
namespace SimpleQuant

namespace RobustPortfolio

/-- Mean as np.mean computes it on a pandas Series (skipna): none models the
NaN result on an empty value set. -/
noncomputable def np_mean (xs : List (Option ℚ)) : Option ℝ :=
  let vals := xs.filterMap id
  if vals = [] then none
  else some ((vals.map fun x => (x : ℝ)).sum / vals.length)

/-- Population standard deviation (ddof 0) as np.std computes it on a pandas
Series (skipna): none models the NaN result on an empty value set. -/
noncomputable def np_std (xs : List (Option ℚ)) : Option ℝ :=
  let vals := xs.filterMap id
  if vals = [] then none
  else
    let m := (vals.map fun x => (x : ℝ)).sum / vals.length
    some (Real.sqrt ((vals.map fun x => ((x : ℝ) - m) ^ 2).sum / vals.length))

/-- RobustPortfolio.create_sortino_ratio on the returns column (whose first
entry is the NaN of pct_change, modelled as none): the downside filter keeps
the negative values (NaN compares false), downside_std = np.std of them; a
NaN downside_std fails the == 0 test and then propagates through
sqrt(252) * mean / downside_std, so the result is NaN (none). -/
noncomputable def create_sortino_ratio (returns : List (Option ℚ)) : Option ℝ :=
  let downside := returns.filter fun x =>
    match x with
    | some v => decide (v < 0)
    | none => false
  match np_std downside with
  | none => none
  | some dstd =>
      if dstd = 0 then some 0
      else
        match np_mean returns with
        | none => none
        | some m => some (Real.sqrt 252 * m / dstd)

/-- The drawdown values create_drawdowns assigns for t = 1 .. : the loop
starts from the hard-coded hwm[0] = 0 and never reads pnl[0]; each step takes
hwm[t] = max(hwm[t-1], pnl[t]) and the ratio only when hwm[t] > 0. -/
def ddList (hwm : ℚ) : List ℚ → List ℚ
  | [] => []
  | p :: rest =>
      (if 0 < max hwm p then (max hwm p - p) / max hwm p else 0) :: ddList (max hwm p) rest

/-- The duration column of create_drawdowns: 0 where the drawdown is 0, else
the previous duration plus one. -/
def durList (prev : ℕ) : List ℚ → List ℕ
  | [] => []
  | d :: ds =>
      (if d = 0 then 0 else prev + 1) :: durList (if d = 0 then 0 else prev + 1) ds

/-- Series.max with skipna over the assigned entries: none models the NaN a
fully unassigned series yields. -/
def series_max (l : List ℚ) : Option ℚ :=
  match l with
  | [] => none
  | x :: xs => some (xs.foldl max x)

/-- RobustPortfolio.create_drawdowns: the maximum drawdown (none models NaN,
which a curve of at most one row yields because index 0 is never assigned)
and the maximum duration (the series is initialised to 0, so a one-row curve
yields 0). -/
def create_drawdowns (pnl : List ℚ) : Option ℚ × Option ℕ :=
  match pnl with
  | [] => (none, none)
  | _ :: rest =>
      (series_max (ddList 0 rest), some ((durList 0 (ddList 0 rest)).foldl max 0))

/-- The per-period returns of create_equity_curve_dataframe: pct_change
without its leading NaN. -/
def pct_change_returns (totals : List ℚ) : List ℚ :=
  List.zipWith (fun a b => b / a - 1) totals totals.tail

/-- The last entry of the equity_curve column: the cumulative product of
(1 + r), pandas cumprod skipping the leading NaN of pct_change. -/
def final_equity_curve (totals : List ℚ) : ℚ :=
  ((pct_change_returns totals).map fun r => 1 + r).prod

/-- RobustPortfolio.create_calmar_ratio: 0 when max_dd is 0; duration is
days / 365.25 clamped below at 0.1 (the try branch; the index of a run is a
datetime index, so the subtraction succeeds and days is the day span); -1
when total_return (the cumulative product, not the product minus one) is
negative; otherwise (total_return ^ (1 / duration) - 1) / max_dd. -/
noncomputable def create_calmar_ratio (total_return max_dd : ℚ) (days : ℤ) : ℝ :=
  if max_dd = 0 then 0
  else
    let d0 : ℚ := (days : ℚ) / (1461 / 4)
    let duration : ℚ := if d0 < 1 / 10 then 1 / 10 else d0
    if total_return < 0 then -1
    else ((total_return : ℝ) ^ ((1 : ℝ) / (duration : ℝ)) - 1) / (max_dd : ℝ)

/-- The Calmar entry of output_summary_stats for a run with the given totals
column and day span: total_return is the final equity_curve value, max_dd the
first component of create_drawdowns; a NaN max_dd fails the == 0 test and
propagates through the division, so the entry is NaN (none). -/
noncomputable def calmar_of_run (totals : List ℚ) (days : ℤ) : Option ℝ :=
  match (create_drawdowns totals).1 with
  | none => none
  | some m => some (create_calmar_ratio (final_equity_curve totals) m days)

/-- C7: a run whose period returns are 1 percent and 2 percent (plus the
leading pct_change NaN) has no negative return; the reported Sortino is NaN
(none), not 0: np.std of the empty downside series is NaN, NaN == 0 is
false, and the division then yields NaN. -/
theorem c7_sortino_nan :
    create_sortino_ratio [none, some (1/100), some (1/50)] = none := by
  simp [create_sortino_ratio, np_std]

end RobustPortfolio

end SimpleQuant
namespace SimpleQuant

namespace RobustPortfolio

/-- C8 counterexample: the run with totals 100, 90, 80 over 2 days has
TotalReturn 4/5 - 1 < 0 and MaxDrawdown 1/9, yet the reported Calmar is
((4/5) ^ 10 - 1) * 9, not -1: the guard in create_calmar_ratio tests the
cumulative product itself, which is positive here. -/
theorem c8_calmar_not_minus_one :
    final_equity_curve [ (100 : ℚ), 90, 80 ] - 1 < 0 ∧
    (create_drawdowns [ (100 : ℚ), 90, 80 ]).1 = some (1/9) ∧
    calmar_of_run [ (100 : ℚ), 90, 80 ] 2 ≠ some (-1) := by
  have hfe : final_equity_curve [ (100 : ℚ), 90, 80 ] = 4/5 := by
    norm_num [final_equity_curve, pct_change_returns]
  have hdd : (create_drawdowns [ (100 : ℚ), 90, 80 ]).1 = some (1/9) := by
    norm_num [create_drawdowns, ddList, series_max, max_def]
  refine ⟨by rw [hfe]; norm_num, hdd, ?_⟩
  unfold calmar_of_run
  rw [hdd, hfe]
  intro hcontra
  have heq := Option.some.inj hcontra
  unfold create_calmar_ratio at heq
  rw [if_neg (by norm_num : ¬ (1/9 : ℚ) = 0)] at heq
  simp only [] at heq
  rw [if_pos (by norm_num : ((2 : ℤ) : ℚ) / (1461 / 4) < 1 / 10),
    if_neg (by norm_num : ¬ (4/5 : ℚ) < 0)] at heq
  have hexp : ((1 : ℝ) / (((1 : ℚ) / 10 : ℚ) : ℝ)) = 10 := by
    push_cast
    norm_num
  rw [hexp] at heq
  have hpow : (((4:ℚ)/5 : ℚ) : ℝ) ^ (10 : ℝ) = (((4:ℚ)/5 : ℚ) : ℝ) ^ (10 : ℕ) := by
    rw [show (10 : ℝ) = ((10 : ℕ) : ℝ) by norm_num, Real.rpow_natCast]
  rw [hpow] at heq
  push_cast at heq
  norm_num at heq

/-- C8 amended: the reported Calmar is -1 exactly on runs whose cumulative
product of (1 + r) is itself negative (TotalReturn below -100 percent) with a
nonzero MaxDrawdown. -/
theorem c8_calmar_negative_product (totals : List ℚ) (days : ℤ) (m : ℚ)
    (hneg : final_equity_curve totals < 0)
    (hdd : (create_drawdowns totals).1 = some m) (hm : m ≠ 0) :
    calmar_of_run totals days = some (-1) := by
  have hred : calmar_of_run totals days =
      some (create_calmar_ratio (final_equity_curve totals) m days) := by
    unfold calmar_of_run
    rw [hdd]
  rw [hred]
  unfold create_calmar_ratio
  rw [if_neg hm]
  simp only [if_pos hneg]

/-- Witness for the amended C8: totals 100, 50, 40, -20 have cumulative
product -1/5 and MaxDrawdown 7/5, and the reported Calmar is -1. -/
theorem c8_calmar_witness :
    calmar_of_run [ (100 : ℚ), 50, 40, -20 ] 3 = some (-1) :=
  c8_calmar_negative_product [ (100 : ℚ), 50, 40, -20 ] 3 (7/5)
    (by norm_num [final_equity_curve, pct_change_returns])
    (by norm_num [create_drawdowns, ddList, series_max, max_def])
    (by norm_num)

/-- Every drawdown value of the loop lies in [0, 1] when the high-water mark
starts nonnegative and the remaining totals are positive. -/
lemma ddList_bounds (l : List ℚ) (hwm : ℚ) (hh : 0 ≤ hwm) (hl : ∀ x ∈ l, 0 < x) :
    ∀ d ∈ ddList hwm l, 0 ≤ d ∧ d ≤ 1 := by
  induction l generalizing hwm with
  | nil =>
    intro d hd
    simp [ddList] at hd
  | cons p rest ih =>
    intro d hd
    have hp : 0 < p := hl p (List.mem_cons_self p rest)
    have hh2 : 0 < max hwm p := lt_of_lt_of_le hp (le_max_right hwm p)
    simp only [ddList, List.mem_cons] at hd
    rcases hd with rfl | hd
    · rw [if_pos hh2]
      refine ⟨div_nonneg (sub_nonneg.mpr (le_max_right hwm p)) (le_of_lt hh2), ?_⟩
      rw [div_le_one hh2]
      linarith
    · exact ih (max hwm p) (le_of_lt hh2) (fun x hx => hl x (List.mem_cons_of_mem p hx)) d hd

/-- A left fold of max keeps the unit-interval bounds. -/
lemma foldl_max_bounds (xs : List ℚ) :
    ∀ x, 0 ≤ x → x ≤ 1 → (∀ d ∈ xs, 0 ≤ d ∧ d ≤ 1) →
      0 ≤ xs.foldl max x ∧ xs.foldl max x ≤ 1 := by
  induction xs with
  | nil =>
    intro x h0 h1 _
    exact ⟨h0, h1⟩
  | cons y ys ih =>
    intro x h0 h1 hall
    have hy := hall y (List.mem_cons_self y ys)
    rw [List.foldl_cons]
    exact ih (max x y) (le_trans h0 (le_max_left x y)) (max_le h1 hy.2)
      (fun d hd => hall d (List.mem_cons_of_mem y hd))

/-- C9 amended: on an equity curve of at least two strictly positive totals
the MaxDrawdown of create_drawdowns is a number in [0, 1]. -/
theorem c9_drawdown_unit_bounds (pnl : List ℚ) (h2 : 2 ≤ pnl.length)
    (hpos : ∀ x ∈ pnl, 0 < x) :
    ∃ m, (create_drawdowns pnl).1 = some m ∧ 0 ≤ m ∧ m ≤ 1 := by
  match pnl, h2 with
  | p :: q :: rest, _ =>
    have hbounds := ddList_bounds (q :: rest) 0 le_rfl
      (fun x hx => hpos x (List.mem_cons_of_mem p hx))
    have hdd : ddList 0 (q :: rest) =
        (if 0 < max 0 q then (max 0 q - q) / max 0 q else 0) :: ddList (max 0 q) rest := rfl
    refine ⟨((ddList (max 0 q) rest).foldl max
      (if 0 < max 0 q then (max 0 q - q) / max 0 q else 0)), ?_, ?_⟩
    · show (series_max (ddList 0 (q :: rest)), _).1 = _
      rw [hdd]
      rfl
    · have hhead := hbounds _ (by rw [hdd]; exact List.mem_cons_self _ _)
      exact foldl_max_bounds (ddList (max 0 q) rest) _ hhead.1 hhead.2
        (fun d hd => hbounds d (by rw [hdd]; exact List.mem_cons_of_mem _ hd))

/-- C9 counterexample: a one-row curve with the strictly positive total 100
yields a NaN MaxDrawdown (the drawdown series keeps its unassigned NaN at
index 0 and Series.max of all NaN is NaN), which satisfies no numeric bound. -/
theorem c9_counterexample :
    (∀ x ∈ [ (100 : ℚ) ], 0 < x) ∧
    ¬ ∃ m, (create_drawdowns [ (100 : ℚ) ]).1 = some m ∧ 0 ≤ m ∧ m ≤ 1 := by
  constructor
  · intro x hx
    rw [List.mem_singleton] at hx
    subst hx
    norm_num
  · rintro ⟨m, hm, _⟩
    simp [create_drawdowns, ddList, series_max] at hm

/-- Witness for the amended C9: totals 100, 90, 80 give MaxDrawdown 1/9,
inside [0, 1]. -/
theorem c9_drawdown_witness :
    ∃ m, (create_drawdowns [ (100 : ℚ), 90, 80 ]).1 = some m ∧ 0 ≤ m ∧ m ≤ 1 :=
  c9_drawdown_unit_bounds [ (100 : ℚ), 90, 80 ] (by norm_num)
    (by intro x hx
        simp only [List.mem_cons, List.mem_singleton, List.not_mem_nil, or_false] at hx
        rcases hx with rfl | rfl | rfl <;> norm_num)

end RobustPortfolio

end SimpleQuant
